import Mathlib

/-!
Verification development for the reflection-driven ORM layer of the
`scaffold` repository (package `orm` plus the `framework` repository layer).

The Go source is shallowly embedded: driver values become an inductive
`Value`, JSON documents an inductive `Json`, reflection metadata becomes
explicit structures, and every stateful operation is modelled as a pure
function that returns the list of SQL statements it would execute
together with its result.  Definition names follow the Go source
(`buildSQLTemplates`, `parseORMTag`, `findFieldByName`, ...).
-/

namespace Scaffold

/-- A database driver value (`driver.Value` in the source).  Byte slices
are modelled as strings; `uuid.UUID` as a natural number tag. -/
inductive Value where
  | null : Value
  | str (s : String) : Value
  | int (n : Int) : Value
  | bool (b : Bool) : Value
  | bytes (s : String) : Value
  | uuid (n : Nat) : Value
  deriving Repr, DecidableEq

/-- `strings.Join(xs, sep)`. -/
def goJoin (sep : String) (xs : List String) : String :=
  String.intercalate sep xs

/-- Splitting worker over characters (single-character separator):
accumulates the current segment until the separator is hit. -/
def splitOnCharAux (sep : Char) : List Char → List Char → List (List Char)
  | [], acc => [acc.reverse]
  | c :: cs, acc =>
    if c = sep then acc.reverse :: splitOnCharAux sep cs []
    else splitOnCharAux sep cs (c :: acc)

/-- `strings.Split(s, sep)` for the single-character separators the
source uses (`;`, `,`, `.`). -/
def goSplit (s : String) (sep : Char) : List String :=
  (splitOnCharAux sep s.data []).map String.mk

/-- `strings.ToLower`. -/
def goToLower (s : String) : String :=
  String.mk (s.data.map Char.toLower)

/-- Character-level prefix test. -/
def charsLeading : List Char → List Char → Bool
  | [], _ => true
  | _ :: _, [] => false
  | a :: as, b :: bs => a = b && charsLeading as bs

/-- `strings.HasPrefix(s, pre)`. -/
def goStartsWith (s pre : String) : Bool :=
  charsLeading pre.data s.data

/-- Dropping the first `n` characters of a string. -/
def goDrop (s : String) (n : Nat) : String :=
  String.mk (s.data.drop n)

/-- `strings.TrimSpace`. -/
def goTrim (s : String) : String :=
  String.mk (((s.data.dropWhile Char.isWhitespace).reverse.dropWhile
    Char.isWhitespace).reverse)

/-! ## SQL template builder (`sql_builder.go`) -/

/-- The precomputed SQL templates (`SQLTemplates` in `registry.go`).
`batchInsert` is a function of the row count, exactly as in the source. -/
structure SQLTemplates where
  insert : String
  update : String
  delete : String
  selectByPK : String
  selectAll : String
  tableName : String
  batchInsert : Nat → String

/-- `buildInsertSQL` from `sql_builder.go`. -/
def buildInsertSQL (tableName : String) (columns placeholders : List String) : String :=
  "INSERT INTO " ++ tableName ++ " (" ++ goJoin "," columns ++ ") VALUES (" ++
    goJoin "," placeholders ++ ")"

/-- `buildUpdateSQL` from `sql_builder.go`. -/
def buildUpdateSQL (tableName : String) (updatePairs : List String) (pkColumn : String) : String :=
  "UPDATE " ++ tableName ++ " SET " ++ goJoin "," updatePairs ++ " WHERE " ++ pkColumn ++ "=$1"

/-- `buildDeleteSQL` from `sql_builder.go`. -/
def buildDeleteSQL (tableName pkColumn : String) : String :=
  "DELETE FROM " ++ tableName ++ " WHERE " ++ pkColumn ++ "=$1"

/-- `buildSelectByPKSQL` from `sql_builder.go`. -/
def buildSelectByPKSQL (tableName : String) (columns : List String) (pkColumn : String) : String :=
  "SELECT " ++ goJoin "," columns ++ " FROM " ++ tableName ++ " WHERE " ++ pkColumn ++ "=$1"

/-- `buildSelectAllSQL` from `sql_builder.go`. -/
def buildSelectAllSQL (tableName : String) (columns : List String) : String :=
  "SELECT " ++ goJoin "," columns ++ " FROM " ++ tableName

/-- One `($i,$i+1,...)` placeholder group of the batch insert: row `i` over
`numCols` columns (`vals` in `buildBatchInsertFunc`). -/
def batchPlaceholderGroup (numCols i : Nat) : String :=
  "(" ++ goJoin ","
      ((List.range numCols).map (fun j => "$" ++ toString (i * numCols + j + 1))) ++ ")"

/-- `buildBatchInsertFunc` from `sql_builder.go`: the returned closure,
applied to a row count.  The source joins the per-row placeholder groups
with `,` and does not guard `count = 0`. -/
def buildBatchInsertFunc (tableName : String) (columns : List String) : Nat → String :=
  fun count =>
    let valueSets := (List.range count).map (batchPlaceholderGroup columns.length)
    "INSERT INTO " ++ tableName ++ " (" ++ goJoin "," columns ++ ") VALUES " ++
      goJoin "," valueSets

/-- The `updatePairs` loop of `buildSQLTemplates`: walk the column names,
skip the primary-key column and `created_at`, and number the remaining
columns `$idx`, `$idx+1`, ... -/
def updatePairsAux (pkColumn : String) : List String → Nat → List String
  | [], _ => []
  | c :: cs, idx =>
    if c ≠ pkColumn ∧ c ≠ "created_at" then
      (c ++ "=$" ++ toString idx) :: updatePairsAux pkColumn cs (idx + 1)
    else
      updatePairsAux pkColumn cs idx

/-- The full-table name computation at the head of `buildSQLTemplates`. -/
def fullTableNameOf (schema tableName : String) : String :=
  if schema ≠ "" ∧ schema ≠ "public" then schema ++ "." ++ tableName else tableName

/-- `buildSQLTemplates` from `sql_builder.go`. -/
def buildSQLTemplates (schema tableName : String) (insertColumns columnNames : List String)
    (pkColumn : String) : SQLTemplates :=
  let fullTableName := fullTableNameOf schema tableName
  let placeholders :=
    (List.range insertColumns.length).map (fun i => "$" ++ toString (i + 1))
  let updatePairs := updatePairsAux pkColumn columnNames 2
  { insert := buildInsertSQL fullTableName insertColumns placeholders
    update := buildUpdateSQL fullTableName updatePairs pkColumn
    delete := buildDeleteSQL fullTableName pkColumn
    selectByPK := buildSelectByPKSQL fullTableName columnNames pkColumn
    selectAll := buildSelectAllSQL fullTableName columnNames
    tableName := fullTableName
    batchInsert := buildBatchInsertFunc fullTableName insertColumns }

/-! ## Field/tag parser (`field_parser.go`) -/

/-- `FieldOptions` from `field_parser.go`. -/
structure FieldOptions where
  column : String
  isPK : Bool
  isAutoIncrement : Bool
  deriving Repr, DecidableEq

/-- `parseORMTag` from `field_parser.go`: semicolon-separated tokens;
`column:<name>` overrides the column, `pk` and `auto` set flags, unknown
tokens are ignored. -/
def parseORMTag (fieldName tag : String) : FieldOptions :=
  let init : FieldOptions := { column := fieldName, isPK := false, isAutoIncrement := false }
  if tag = "" then init
  else
    (goSplit tag ';').foldl
      (fun opts part =>
        if goStartsWith part "column:" then { opts with column := goDrop part 7 }
        else if part = "pk" then { opts with isPK := true }
        else if part = "auto" then { opts with isAutoIncrement := true }
        else opts)
      init

/-- The reflected kind of a field's type, as far as the identifier
closures (`makeExtractID` / `makeSetID`) distinguish it: the 128-bit
UUID type, `int64`, `int`, or anything else. -/
inductive TypeKind where
  | uuidT : TypeKind
  | int64T : TypeKind
  | intT : TypeKind
  | otherT : TypeKind
  deriving Repr, DecidableEq

mutual
/-- A struct field as the reflection layer sees it: name, `orm` tag,
`json` tag, byte offset, reflected type kind, and (for anonymous
embedded structs) the nested field list. -/
inductive GoField where
  | plain (name ormTag jsonTag : String) (offset : Nat) (kind : TypeKind) : GoField
  | anon (offset : Nat) (sub : GoFieldList) : GoField
/-- The field list of a reflected struct type. -/
inductive GoFieldList where
  | nil : GoFieldList
  | cons (f : GoField) (rest : GoFieldList) : GoFieldList
end

/-- Build a reflected field list from a plain list. -/
def listToGoFields : List GoField → GoFieldList
  | [] => GoFieldList.nil
  | f :: fs => GoFieldList.cons f (listToGoFields fs)

/-- `FieldMetadata` from `registry.go` (the attributes the claims use). -/
structure FieldMeta where
  name : String
  column : String
  offset : Nat
  isPK : Bool
  isAutoIncrement : Bool
  index : Nat
  deriving Repr, DecidableEq

/-- The accumulating state threaded through `parseFieldsRecursive`:
parsed fields, their offsets, column names, and the primary-key index
(`-1` when none is declared). -/
structure ParseState where
  fields : List FieldMeta
  fieldOffsets : List Nat
  fieldKinds : List TypeKind
  columnNames : List String
  pkIndex : Int
  deriving Repr, DecidableEq

mutual
/-- `parseFieldsRecursive` from `field_parser.go`: anonymous embedded
structs are flattened with an accumulated base offset, a field whose
`orm` tag is `-` is skipped, and a `pk` field records the flattened index
current at the time it is seen (last `pk` wins). -/
def parseFieldsRecursive (baseOffset : Nat) : GoFieldList → Nat → ParseState → ParseState
  | GoFieldList.nil, _, st => st
  | GoFieldList.cons f rest, i, st =>
    parseFieldsRecursive baseOffset rest (i + 1) (parseOneField baseOffset f i st)
/-- The body of the `for` loop inside `parseFieldsRecursive`: an
anonymous embedded struct field recurses with the accumulated base
offset, a `-`-tagged field is skipped, and every other field is appended
(recording the reflect loop index `i` and, for a `pk` field, the current
flattened position as primary-key index). -/
def parseOneField (baseOffset : Nat) : GoField → Nat → ParseState → ParseState
  | GoField.anon off sub, _, st => parseFieldsRecursive (baseOffset + off) sub 0 st
  | GoField.plain name tag _jsonTag off kind, i, st =>
    if tag = "-" then st
    else
      let opts := parseORMTag name tag
      let pkIndex := if opts.isPK then (st.fieldOffsets.length : Int) else st.pkIndex
      { fields := st.fields ++
          [{ name := name, column := opts.column, offset := baseOffset + off,
             isPK := opts.isPK, isAutoIncrement := opts.isAutoIncrement,
             index := i }]
        fieldOffsets := st.fieldOffsets ++ [baseOffset + off]
        fieldKinds := st.fieldKinds ++ [kind]
        columnNames := st.columnNames ++ [opts.column]
        pkIndex := pkIndex }
end

/-- `parseFields` from `field_parser.go`. -/
def parseFields (fields : GoFieldList) : ParseState :=
  parseFieldsRecursive 0 fields 0
    { fields := [], fieldOffsets := [], fieldKinds := [], columnNames := [], pkIndex := -1 }

/-- `discoverTableName` from `field_parser.go`: an optional `TableName()`
capability wins, split on `.` into schema and table; otherwise the
pluralized lowercase type name under schema `public`. -/
def discoverTableName (typeName : String) (tableNameCap : Option String) : String × String :=
  match tableNameCap with
  | some fullName =>
    let parts := goSplit fullName '.'
    if parts.length = 2 then (parts.headD "", (parts.drop 1).headD "")
    else ("public", fullName)
  | none => ("public", goToLower typeName ++ "s")

/-- `filterInsertFields` from `field_parser.go`: drop auto-increment
fields, keeping the surviving column names and their field indices. -/
def filterInsertFields (fields : List FieldMeta) (columnNames : List String) :
    List String × List Nat :=
  let idx := (List.range fields.length).zip fields
  let kept := idx.filter (fun p => !p.2.isAutoIncrement)
  (kept.map (fun p => columnNames.getD p.1 ""), kept.map (·.1))

/-! ## Model metadata registry (`registry.go`) and value ops (`value_ops.go`) -/

/-- `ModelMetadata` from `registry.go`, restricted to the attributes the
claims use.  `pkIndex`, `insertIndices` and `idKind` are the data the
source captures inside the `ExtractValues` / `ExtractID` / `SetID`
closures. -/
structure Meta where
  tableName : String
  schema : String
  fields : List FieldMeta
  fieldMap : String → Option Nat
  pkFields : List String
  templates : SQLTemplates
  idColumn : String
  idKind : Option TypeKind
  pkIndex : Int
  insertIndices : List Nat

/-- Everything `RegisterModel[T]` learns about `T` through reflection and
capability probing before computing metadata: the `%T` type key, the
type name, the optional `TableName()` capability, and the field tree. -/
structure ModelDesc where
  typeKey : String
  typeName : String
  tableNameCap : Option String
  fields : GoFieldList

/-- The pure metadata computation performed by `RegisterModel[T]` in
`registry.go` (everything up to the two store writes). -/
def buildMetadata (d : ModelDesc) : Meta :=
  let st := parseFields d.fields
  let schemaTable := discoverTableName d.typeName d.tableNameCap
  let ins := filterInsertFields st.fields st.columnNames
  let idColumn :=
    if 0 ≤ st.pkIndex ∧ st.pkIndex < (st.columnNames.length : Int) then
      st.columnNames.getD st.pkIndex.toNat "id"
    else "id"
  let idKind :=
    if 0 ≤ st.pkIndex ∧ st.pkIndex < (st.columnNames.length : Int) then
      some (st.fieldKinds.getD st.pkIndex.toNat TypeKind.otherT)
    else none
  let templates := buildSQLTemplates schemaTable.1 schemaTable.2 ins.1 st.columnNames idColumn
  let fieldMap : String → Option Nat :=
    ((List.range st.fields.length).zip st.fields).foldl
      (fun m p => fun c => if c = p.2.column then some p.1 else m c)
      (fun _ => none)
  { tableName := schemaTable.2
    schema := schemaTable.1
    fields := st.fields
    fieldMap := fieldMap
    pkFields := (st.fields.filter (·.isPK)).map (·.column)
    templates := templates
    idColumn := idColumn
    idKind := idKind
    pkIndex := st.pkIndex
    insertIndices := ins.2 }

/-- The process-wide `metadataByType` store, keyed by the `%T` type key. -/
def RegistryState : Type := String → Option Meta

/-- `RegisterModel[T]` from `registry.go`: recompute the metadata from
scratch and overwrite whatever the store held for that key. -/
def registerModel (d : ModelDesc) (st : RegistryState) : RegistryState :=
  fun k => if k = d.typeKey then some (buildMetadata d) else st k

/-- `GetMetadata[T]` from `registry.go`. -/
def getMetadata (typeKey : String) (st : RegistryState) : Option Meta :=
  st typeKey

/-- An entity instance: its field values in flattened field order
(the memory the extraction/scan closures read and write). -/
structure EntityState where
  vals : List Value
  deriving Repr, DecidableEq

/-- The `ExtractValues` closure built by `makeExtractValues`
(`value_ops.go`): read the fields named by `insertIndices`, in order. -/
def extractValues (meta : Meta) (e : EntityState) : List Value :=
  meta.insertIndices.map (fun i => e.vals.getD i Value.null)

/-- The `ExtractID` closure built by `makeExtractID` (`value_ops.go`):
`nil` when no primary key is declared, otherwise the primary-key field's
value. -/
def extractID (meta : Meta) (e : EntityState) : Value :=
  if meta.pkIndex < 0 then Value.null
  else e.vals.getD meta.pkIndex.toNat Value.null

/-- The write made by the `SetID` closure (`makeSetID` in
`value_ops.go`) on the primary-key field: a UUID-typed field accepts a
UUID id, an `int64`/`int` field accepts an `int64` id, and any other
combination writes nothing. -/
def setIDValue (kind : Option TypeKind) (old id : Value) : Value :=
  match kind, id with
  | some TypeKind.uuidT, Value.uuid n => Value.uuid n
  | some TypeKind.int64T, Value.int n => Value.int n
  | some TypeKind.intT, Value.int n => Value.int n
  | _, _ => old

/-- The `SetID` closure built by `makeSetID` (`value_ops.go`). -/
def setID (meta : Meta) (e : EntityState) (id : Value) : EntityState :=
  if meta.pkIndex < 0 then e
  else
    { vals := e.vals.set meta.pkIndex.toNat
        (setIDValue meta.idKind (e.vals.getD meta.pkIndex.toNat Value.null) id) }

/-! ## CRUD helpers (`Transaction[T]` / `DB[T]`, the second part of
`scanner_test.go`) -/

/-- A scan outcome: the distinguished `sql.ErrNoRows` signal or another
error message. -/
inductive ScanErr where
  | noRows : ScanErr
  | msg (s : String) : ScanErr
  deriving Repr, DecidableEq

/-- One executed statement: SQL text plus bound arguments. -/
structure Stmt where
  sql : String
  args : List Value
  deriving Repr, DecidableEq

/-- The argument-collection loop of `Transaction[T].Update` /
`DB[T].Update`: walk `metadata.Fields` by index `i`, skip the
primary-key column and `created_at`, and append `values[i]`.  `values`
is the `ExtractValues` output, so when field `i` is not an insertable
index the read is misaligned; an index past `values` is a Go runtime
panic, modelled as `none`. -/
def updateBindLoop (pkColumn : String) (values : List Value) :
    List FieldMeta → Nat → Option (List Value)
  | [], _ => some []
  | f :: fs, i =>
    if f.column ≠ pkColumn ∧ f.column ≠ "created_at" then
      match values.get? i with
      | none => none
      | some v => (updateBindLoop pkColumn values fs (i + 1)).map (v :: ·)
    else updateBindLoop pkColumn values fs (i + 1)

/-- `Transaction[T].Update` / `DB[T].Update` (both share this body): the
executed statement is the prebuilt update template with the extracted id
bound first, followed by the values collected by `updateBindLoop`. -/
def updateOp (meta : Meta) (e : EntityState) : Option Stmt :=
  let values := extractValues meta e
  let id := extractID meta e
  (updateBindLoop meta.idColumn values meta.fields 0).map
    (fun rest => { sql := meta.templates.update, args := id :: rest })

/-- The RETURNING-row walk of `CreateMultiple`: entity `i` receives row
`i` through `SetID`; the loop stops at whichever of the two lists runs
out first (`if i >= len(entities) break`). -/
def applyReturnedIDs (meta : Meta) : List EntityState → List Value → List EntityState
  | es, [] => es
  | [], _ => []
  | e :: es, v :: vs => setID meta e v :: applyReturnedIDs meta es vs

/-- The non-empty body shared verbatim by `Transaction[T].CreateMultiple`
and `DB[T].CreateMultiple`: concatenate the extracted values of every
entity, render the batch insert for the slice length, and append
`RETURNING <id column>` whenever the metadata carries a non-empty id
column, walking the returned rows positionally.  `returnedIDs` is the
backend's RETURNING result, in insertion order. -/
def createMultipleCore (meta : Meta) (entities : List EntityState)
    (returnedIDs : List Value) : List Stmt × List EntityState :=
  let allValues := (entities.map (extractValues meta)).flatten
  let batchSQL := meta.templates.batchInsert entities.length
  if meta.idColumn ≠ "" then
    ([{ sql := batchSQL ++ " RETURNING " ++ meta.idColumn, args := allValues }],
      applyReturnedIDs meta entities returnedIDs)
  else
    ([{ sql := batchSQL, args := allValues }], entities)

/-- `Transaction[T].CreateMultiple`: empty input returns success with no
statement; a missing query handle is an error; otherwise the shared
batch body runs. -/
def txCreateMultiple (meta : Meta) (hasQuery : Bool) (entities : List EntityState)
    (returnedIDs : List Value) : Except String (List Stmt × List EntityState) :=
  if entities.length = 0 then Except.ok ([], entities)
  else if !hasQuery then Except.error "no transaction in request"
  else Except.ok (createMultipleCore meta entities returnedIDs)

/-- `DB[T].CreateMultiple`: empty input returns success with no
statement; otherwise the shared batch body runs. -/
def dbCreateMultiple (meta : Meta) (entities : List EntityState)
    (returnedIDs : List Value) : Except String (List Stmt × List EntityState) :=
  if entities.length = 0 then Except.ok ([], entities)
  else Except.ok (createMultipleCore meta entities returnedIDs)

/-- `strings.Index`-based column recovery used by the upsert code: the
text between the first `(` and the first `)` of the prebuilt insert
statement, split on `,`. -/
def insertSQLColumns (insertSQL : String) : List String :=
  let chars := insertSQL.data
  let i := (chars.findIdx? (· = '(')).getD 0
  let j := (chars.findIdx? (· = ')')).getD 0
  goSplit (String.mk ((chars.drop (i + 1)).take (j - i - 1))) ','

/-- The `updateCols` loop shared by both upsert paths when no explicit
update-column list applies: trim each recovered column, drop conflict
columns and `created_at`, and emit `col=EXCLUDED.col`. -/
def excludedUpdateCols (cols conflictColumns : List String) : List String :=
  cols.filterMap (fun col =>
    let colName := goTrim col
    if conflictColumns.contains colName then none
    else if colName = "created_at" then none
    else some (colName ++ "=EXCLUDED." ++ colName))

/-- What one `QueryRow` + `ScanRow` round trip produced. -/
inductive RowResp where
  | row : RowResp
  | noRows : RowResp
  | failure (s : String) : RowResp
  deriving Repr, DecidableEq

/-- The `conflictValues` loop of `Transaction[T].Upsert`'s fallback
SELECT: for each conflict column take `values[j]` for the first field
`j` whose column matches, leaving the entry `nil` when no field
matches.  `values` is the `ExtractValues` output while `j` ranges over
all of `metadata.Fields`, so a matching field index past the end of
`values` is an index-out-of-range runtime panic in Go (reachable for
auto-increment models) — modelled as `none` for the whole loop. -/
def conflictValuesOf (meta : Meta) (values : List Value) :
    List String → Option (List Value)
  | [] => some []
  | col :: cols =>
    let v : Option Value :=
      match ((List.range meta.fields.length).zip meta.fields).find?
          (fun p => p.2.column = col) with
      | some p => values.get? p.1
      | none => some Value.null
    match v, conflictValuesOf meta values cols with
    | some x, some xs => some (x :: xs)
    | _, _ => none

/-- `Transaction[T].Upsert` from the CRUD helper.  Result: the executed
statements in order and the call's outcome, or `none` for the runtime
panic in the fallback's `conflictValues` loop.  `updColsCap` is the
optional `UpdateColumns()` capability (`none` = not implemented);
`firstResp` is what scanning the first statement's row produced, and
`secondResp` what the fallback SELECT (if reached) produced. -/
def txUpsert (meta : Meta) (hasQuery : Bool) (e : EntityState)
    (conflictColumns : List String) (updColsCap : Option (List String))
    (firstResp secondResp : RowResp) : Option (List Stmt × Except ScanErr Unit) :=
  if conflictColumns.length = 0 then
    if !hasQuery then some ([], Except.error (ScanErr.msg "no transaction in request"))
    else
      some ([{ sql := meta.templates.insert, args := extractValues meta e }], Except.ok ())
  else if !hasQuery then some ([], Except.error (ScanErr.msg "no transaction in request"))
  else
    let values := extractValues meta e
    let returnCols := meta.fields.map (·.column)
    if updColsCap = some [] then
      let upsertSQL := meta.templates.insert ++ " ON CONFLICT (" ++
        goJoin "," conflictColumns ++ ") DO NOTHING RETURNING " ++ goJoin "," returnCols
      match firstResp with
      | RowResp.row => some ([{ sql := upsertSQL, args := values }], Except.ok ())
      | RowResp.failure s =>
        some ([{ sql := upsertSQL, args := values }], Except.error (ScanErr.msg s))
      | RowResp.noRows =>
        let whereConditions :=
          conflictColumns.mapIdx (fun i col => col ++ " = $" ++ toString (i + 1))
        let selectSQL := "SELECT " ++ goJoin "," returnCols ++ " FROM " ++
          meta.tableName ++ " WHERE " ++ goJoin " AND " whereConditions
        match conflictValuesOf meta values conflictColumns with
        | none => none
        | some conflictValues =>
          let res : Except ScanErr Unit :=
            match secondResp with
            | RowResp.row => Except.ok ()
            | RowResp.noRows => Except.error ScanErr.noRows
            | RowResp.failure s => Except.error (ScanErr.msg s)
          some ([{ sql := upsertSQL, args := values },
            { sql := selectSQL, args := conflictValues }], res)
    else
      let updateCols :=
        match updColsCap with
        | some explicit =>
          if explicit.length > 0 then explicit.map (fun col => col ++ "=EXCLUDED." ++ col)
          else excludedUpdateCols (insertSQLColumns meta.templates.insert) conflictColumns
        | none => excludedUpdateCols (insertSQLColumns meta.templates.insert) conflictColumns
      let upsertSQL := meta.templates.insert ++ " ON CONFLICT (" ++
        goJoin "," conflictColumns ++ ") DO UPDATE SET " ++ goJoin "," updateCols ++
        " RETURNING " ++ goJoin "," returnCols
      let res : Except ScanErr Unit :=
        match firstResp with
        | RowResp.row => Except.ok ()
        | RowResp.noRows => Except.error ScanErr.noRows
        | RowResp.failure s => Except.error (ScanErr.msg s)
      some ([{ sql := upsertSQL, args := values }], res)

/-- `DB[T].Upsert`: no `UpdateColumns()` probe at all — with conflict
columns it always derives the update set from the insert template and
issues `ON CONFLICT .. DO UPDATE`. -/
def dbUpsert (meta : Meta) (e : EntityState) (conflictColumns : List String)
    (resp : RowResp) : List Stmt × Except ScanErr Unit :=
  if conflictColumns.length = 0 then
    ([{ sql := meta.templates.insert, args := extractValues meta e }], Except.ok ())
  else
    let values := extractValues meta e
    let updateCols := excludedUpdateCols (insertSQLColumns meta.templates.insert) conflictColumns
    let returnCols := meta.fields.map (·.column)
    let upsertSQL := meta.templates.insert ++ " ON CONFLICT (" ++
      goJoin "," conflictColumns ++ ") DO UPDATE SET " ++ goJoin "," updateCols ++
      " RETURNING " ++ goJoin "," returnCols
    let res : Except ScanErr Unit :=
      match resp with
      | RowResp.row => Except.ok ()
      | RowResp.noRows => Except.error ScanErr.noRows
      | RowResp.failure s => Except.error (ScanErr.msg s)
    ([{ sql := upsertSQL, args := values }], res)

/-! ## Scanner and raw scanner (third part of `transaction_test.go`) -/

/-- A result-set row: column names with their driver values. -/
def Row : Type := List (String × Value)

/-- The row loop shared by `Scanner.ScanRows`, `RawScanner.scanSlice`,
`FindByQuery` and `FindAll`: scan each row, append, stop at the first
error.  `rowScan` is the per-row scan call (`ScanRow` resp. the
metadata `ScanRows` closure). -/
def scanRowsLoop {α : Type} (rowScan : Row → Except ScanErr α) :
    List Row → List α → Except ScanErr (List α)
  | [], acc => Except.ok acc
  | r :: rs, acc =>
    match rowScan r with
    | Except.error e => Except.error e
    | Except.ok x => scanRowsLoop rowScan rs (acc ++ [x])

/-- `Scanner.ScanRows`: a `nil` destination slice (`none`) is replaced by
an empty non-nil slice before the row loop; the result is always a
non-nil slice (`some`). -/
def scannerScanRows {α : Type} (rowScan : Row → Except ScanErr α) (rows : List Row)
    (dest : Option (List α)) : Except ScanErr (Option (List α)) :=
  (scanRowsLoop rowScan rows (dest.getD [])).map some

/-- `RawScanner.scanSlice`: same nil-slice initialization and row loop as
the metadata scanner's multi-row entry point. -/
def rawScanSlice {α : Type} (rowScan : Row → Except ScanErr α) (rows : List Row)
    (dest : Option (List α)) : Except ScanErr (Option (List α)) :=
  (scanRowsLoop rowScan rows (dest.getD [])).map some

/-- `RawScanner.scanStruct`: a single-row path — no row at all is the
distinguished `sql.ErrNoRows`, otherwise the first row is scanned. -/
def rawScanStruct {α : Type} (scanStructRow : Row → Except ScanErr α)
    (rows : List Row) : Except ScanErr α :=
  match rows with
  | [] => Except.error ScanErr.noRows
  | r :: _ => scanStructRow r

/-- Go map write: overwrite the entry for the key. -/
def mapStore (m : List (String × Value)) (k : String) (v : Value) :
    List (String × Value) :=
  (m.filter (fun p => p.1 ≠ k)) ++ [(k, v)]

/-- `RawScanner.scanMap`: a single-row path — no row is `sql.ErrNoRows`;
otherwise a nil map is initialized and every column of the first row is
stored under its column name. -/
def rawScanMap (rows : List Row) (dest : Option (List (String × Value))) :
    Except ScanErr (List (String × Value)) :=
  match rows with
  | [] => Except.error ScanErr.noRows
  | r :: _ => Except.ok (r.foldl (fun m p => mapStore m p.1 p.2) (dest.getD []))

/-- `Transaction[T].FindByQuery`: propagate a query error, otherwise run
the row loop starting from a freshly made empty (non-nil) slice. -/
def txFindByQuery {α : Type} (hasQuery : Bool)
    (queryRes : Except ScanErr (List Row)) (rowScan : Row → Except ScanErr α) :
    Except ScanErr (Option (List α)) :=
  if !hasQuery then Except.error (ScanErr.msg "no transaction in request")
  else
    match queryRes with
    | Except.error e => Except.error e
    | Except.ok rows => (scanRowsLoop rowScan rows []).map some

/-- `Transaction[T].FindAll`: same loop over the prebuilt select-all. -/
def txFindAll {α : Type} (hasQuery : Bool)
    (queryRes : Except ScanErr (List Row)) (rowScan : Row → Except ScanErr α) :
    Except ScanErr (Option (List α)) :=
  if !hasQuery then Except.error (ScanErr.msg "no transaction in request")
  else
    match queryRes with
    | Except.error e => Except.error e
    | Except.ok rows => (scanRowsLoop rowScan rows []).map some

/-- `DB[T].FindByQuery`. -/
def dbFindByQuery {α : Type} (queryRes : Except ScanErr (List Row))
    (rowScan : Row → Except ScanErr α) : Except ScanErr (Option (List α)) :=
  match queryRes with
  | Except.error e => Except.error e
  | Except.ok rows => (scanRowsLoop rowScan rows []).map some

/-- `DB[T].FindAll`. -/
def dbFindAll {α : Type} (queryRes : Except ScanErr (List Row))
    (rowScan : Row → Except ScanErr α) : Except ScanErr (Option (List α)) :=
  match queryRes with
  | Except.error e => Except.error e
  | Except.ok rows => (scanRowsLoop rowScan rows []).map some

/-- A destination struct field as `RawScanner.findFieldByName` sees it:
Go field name, `orm` tag and `json` tag. -/
structure RawField where
  name : String
  ormTag : String
  jsonTag : String
  deriving Repr, DecidableEq

/-- The `orm` tag check inside `findFieldByName`: a non-empty tag whose
`column:<name>` token equals the (lowercased) column name. -/
def ormTagMatches (tag lowered : String) : Bool :=
  tag ≠ "" && (goSplit tag ';').any (fun part =>
    goStartsWith part "column:" && goToLower (goDrop part 7) = lowered)

/-- The `json` tag check inside `findFieldByName`: the segment before the
first comma equals the (lowercased) column name. -/
def jsonTagMatches (tag lowered : String) : Bool :=
  tag ≠ "" && goToLower ((goSplit tag ',').headD "") = lowered

/-- Whether one field matches the lowered column name by any of the three
criteria `findFieldByName` checks for a field: Go name, `orm` tag,
`json` tag. -/
def fieldMatches (f : RawField) (lowered : String) : Bool :=
  goToLower f.name = lowered || ormTagMatches f.ormTag lowered ||
    jsonTagMatches f.jsonTag lowered

/-- `RawScanner.findFieldByName`: lower-case the column name, then return
the first field (in declaration order) that matches by Go name, `orm`
tag or `json` tag. -/
def findFieldByName (fields : List RawField) (name : String) : Option RawField :=
  fields.find? (fun f => fieldMatches f (goToLower name))

/-! ## Type handlers (`type_handler.go`) -/

/-- A JSON document.  Driver byte payloads that hold JSON are modelled by
the document they encode, so `Json.null` is the literal `null` text and
an absent (SQL NULL) payload is `Option.none` at the driver level. -/
inductive Json where
  | null : Json
  | jbool (b : Bool) : Json
  | jnum (n : Int) : Json
  | jstr (s : String) : Json
  | jarr (xs : List Json) : Json
  | jobj (kvs : List (String × Json)) : Json

/-- The shape of a Go type, as far as `JSONHandler.CanHandle`
distinguishes it. -/
inductive GoTyShape where
  | sliceOf (elemIsByte : Bool) : GoTyShape
  | mapTy : GoTyShape
  | structTy (isUUID isTime : Bool) : GoTyShape
  | otherTy : GoTyShape
  deriving Repr, DecidableEq

/-- `JSONHandler.CanHandle`: slices except byte slices, maps, and structs
except the UUID and timestamp types. -/
def jsonCanHandle : GoTyShape → Bool
  | GoTyShape.sliceOf elemIsByte => !elemIsByte
  | GoTyShape.mapTy => true
  | GoTyShape.structTy isUUID isTime => !(isUUID || isTime)
  | GoTyShape.otherTy => false

/-- An in-memory value of a field the generic JSON handler claims.  For
slices and maps, `none` is Go's nil (the reflect zero value) and `some`
a non-nil collection. -/
inductive GoJsonValue where
  | goSlice (elems : Option (List Json)) : GoJsonValue
  | goMap (entries : Option (List (String × Json))) : GoJsonValue
  | goStruct (fields : List (String × Json)) : GoJsonValue

/-- `json.Marshal` on such a value: a nil slice or map marshals to the
JSON `null` literal, everything else to its array/object document. -/
def jsonMarshal : GoJsonValue → Json
  | GoJsonValue.goSlice none => Json.null
  | GoJsonValue.goSlice (some xs) => Json.jarr xs
  | GoJsonValue.goMap none => Json.null
  | GoJsonValue.goMap (some kvs) => Json.jobj kvs
  | GoJsonValue.goStruct fs => Json.jobj fs

/-- `JSONHandler.ExtractValue`: the `IsZero` guard rewrites a zero
(i.e. nil) slice to the `[]` bytes and a zero map to the empty-object
bytes before `json.Marshal` would have produced `null`; all other
values, including zero structs, go through `json.Marshal`.  `none`
would be a SQL NULL driver value — never produced here. -/
def jsonHandlerExtractValue : GoJsonValue → Option Json
  | GoJsonValue.goSlice none => some (Json.jarr [])
  | GoJsonValue.goMap none => some (Json.jobj [])
  | v => some (jsonMarshal v)

/-- The kind of the destination field of a `jsonScanner`, carrying for a
struct its reflect zero value. -/
inductive JsonDestKind where
  | kslice : JsonDestKind
  | kmap : JsonDestKind
  | kstruct (zero : List (String × Json)) : JsonDestKind

/-- `jsonScanner.Scan`: SQL NULL (`none`) initializes a slice to an
empty non-nil slice, a map to an empty non-nil map and a struct to its
zero value, with no error; a non-NULL payload is `json.Unmarshal`ed
into the destination (modelled at the document level). -/
def jsonScannerScan (kind : JsonDestKind) (src : Option Json) :
    Except String GoJsonValue :=
  match src with
  | none =>
    match kind with
    | JsonDestKind.kslice => Except.ok (GoJsonValue.goSlice (some []))
    | JsonDestKind.kmap => Except.ok (GoJsonValue.goMap (some []))
    | JsonDestKind.kstruct zero => Except.ok (GoJsonValue.goStruct zero)
  | some j =>
    match kind, j with
    | JsonDestKind.kslice, Json.jarr xs => Except.ok (GoJsonValue.goSlice (some xs))
    | JsonDestKind.kmap, Json.jobj kvs => Except.ok (GoJsonValue.goMap (some kvs))
    | JsonDestKind.kstruct _, Json.jobj kvs => Except.ok (GoJsonValue.goStruct kvs)
    | _, _ => Except.error "failed to unmarshal"

/-- `RawMessageHandler.ExtractValue`: a nil `json.RawMessage` extracts to
the byte payload `null` (the JSON literal — not a SQL NULL driver
value); a non-nil message is passed through verbatim. -/
def rawMessageExtractValue : Option String → Value
  | none => Value.bytes "null"
  | some s => Value.bytes s

/-- `rawMessageScanner.Scan`: SQL NULL sets the field to nil; byte or
string payloads are copied verbatim; anything else is a type error. -/
def rawMessageScan : Value → Except String (Option String)
  | Value.null => Except.ok none
  | Value.bytes s => Except.ok (some s)
  | Value.str s => Except.ok (some s)
  | _ => Except.error "cannot scan type into json.RawMessage"

/-! ## Repository layer (`framework/base_repository.go`) -/

/-- An observable effect of a repository call. -/
inductive RepoEvent where
  | preHook (i : Nat) : RepoEvent
  | postHook (i : Nat) : RepoEvent
  | stmt (sql : String) : RepoEvent
  deriving Repr, DecidableEq

/-- An entity as the repository hooks see it: whether its pre- and
post-operation lifecycle hooks fail. -/
structure RepoEntity where
  preErr : Option String
  postErr : Option String
  deriving Repr, DecidableEq

/-- A hook loop (`for _, entity := range entities { if err := hook; ... }`):
runs hooks in order, recording an event per invocation and stopping at
the first error. -/
def runHooksAux (mk : Nat → RepoEvent) (errOf : RepoEntity → Option String) :
    List RepoEntity → Nat → List RepoEvent × Option String
  | [], _ => ([], none)
  | e :: es, i =>
    match errOf e with
    | some err => ([mk i], some err)
    | none =>
      let rest := runHooksAux mk errOf es (i + 1)
      (mk i :: rest.1, rest.2)

/-- `PostgresInsertRepository.CreateMultiple`: empty input returns `nil`
before any hook or database access; otherwise pre-hooks, the ORM batch
call, then post-hooks. -/
def repoCreateMultiple (entities : List RepoEntity) (hasExecutor : Bool)
    (ormStmts : List String) (ormRes : Except String Unit) :
    List RepoEvent × Except String Unit :=
  if entities.length = 0 then ([], Except.ok ())
  else
    let pre := runHooksAux RepoEvent.preHook (·.preErr) entities 0
    match pre.2 with
    | some err => (pre.1, Except.error ("pre-insert failed: " ++ err))
    | none =>
      if !hasExecutor then (pre.1, Except.error "no database connection available")
      else
        let evs := pre.1 ++ ormStmts.map RepoEvent.stmt
        match ormRes with
        | Except.error err => (evs, Except.error err)
        | Except.ok _ =>
          let post := runHooksAux RepoEvent.postHook (·.postErr) entities 0
          match post.2 with
          | some err => (evs ++ post.1, Except.error ("post-insert failed: " ++ err))
          | none => (evs ++ post.1, Except.ok ())

/-- `PostgresUpdateRepository.UpdateMultiple`: same empty-input guard
before hooks and database access. -/
def repoUpdateMultiple (entities : List RepoEntity) (hasExecutor : Bool)
    (ormStmts : List String) (ormRes : Except String Unit) :
    List RepoEvent × Except String Unit :=
  if entities.length = 0 then ([], Except.ok ())
  else
    let pre := runHooksAux RepoEvent.preHook (·.preErr) entities 0
    match pre.2 with
    | some err => (pre.1, Except.error err)
    | none =>
      if !hasExecutor then (pre.1, Except.error "no database connection available")
      else
        let evs := pre.1 ++ ormStmts.map RepoEvent.stmt
        match ormRes with
        | Except.error err => (evs, Except.error err)
        | Except.ok _ =>
          let post := runHooksAux RepoEvent.postHook (·.postErr) entities 0
          match post.2 with
          | some err => (evs ++ post.1, Except.error ("post-update failed: " ++ err))
          | none => (evs ++ post.1, Except.ok ())

/-- `PostgresDeleteRepository.DeleteMultiple`: same empty-input guard
before hooks and database access. -/
def repoDeleteMultiple (entities : List RepoEntity) (hasExecutor : Bool)
    (ormStmts : List String) (ormRes : Except String Unit) :
    List RepoEvent × Except String Unit :=
  if entities.length = 0 then ([], Except.ok ())
  else
    let pre := runHooksAux RepoEvent.preHook (·.preErr) entities 0
    match pre.2 with
    | some err => (pre.1, Except.error err)
    | none =>
      if !hasExecutor then (pre.1, Except.error "no database connection available")
      else
        let evs := pre.1 ++ ormStmts.map RepoEvent.stmt
        match ormRes with
        | Except.error err => (evs, Except.error err)
        | Except.ok _ =>
          let post := runHooksAux RepoEvent.postHook (·.postErr) entities 0
          match post.2 with
          | some err => (evs ++ post.1, Except.error ("post-delete failed: " ++ err))
          | none => (evs ++ post.1, Except.ok ())

/-! ## Specification-side helper definitions and concrete fixtures -/

/-- The columns the spec says the UPDATE SET clause must contain: all
columns except the primary-key column and `created_at`, in order. -/
def setColumns (columnNames : List String) (pkColumn : String) : List String :=
  columnNames.filter (fun c => decide (c ≠ pkColumn ∧ c ≠ "created_at"))

/-- Render `col=$k` pairs with consecutive placeholder numbers starting
at `start`. -/
def numberedPairs : List String → Nat → List String
  | [], _ => []
  | c :: cs, start => (c ++ "=$" ++ toString start) :: numberedPairs cs (start + 1)

/-- A model mirroring the relevant columns of the repository's
`TestNode` test model: UUID primary key `id`, a payload column and the
two timestamp columns, table name from the `TableName()` capability. -/
def nodeDesc : ModelDesc :=
  { typeKey := "orm.TestNode"
    typeName := "TestNode"
    tableNameCap := some "test_nodes"
    fields := listToGoFields
      [GoField.plain "ID" "column:id;pk" "id" 0 TypeKind.uuidT,
       GoField.plain "Name" "column:name" "name" 16 TypeKind.otherT,
       GoField.plain "CreatedAt" "column:created_at" "created_at" 32 TypeKind.otherT,
       GoField.plain "UpdatedAt" "column:updated_at" "updated_at" 40 TypeKind.otherT] }

/-- Registered metadata of the `TestNode`-like model. -/
def nodeMeta : Meta := buildMetadata nodeDesc

/-- A model with an auto-increment `int64` primary key (tag
`column:id;pk;auto`), the case that separates the insert-filtered
`ExtractValues` output from the full field list. -/
def autoDesc : ModelDesc :=
  { typeKey := "orm.AutoItem"
    typeName := "AutoItem"
    tableNameCap := none
    fields := listToGoFields
      [GoField.plain "ID" "column:id;pk;auto" "id" 0 TypeKind.int64T,
       GoField.plain "Name" "column:name" "name" 8 TypeKind.otherT,
       GoField.plain "CreatedAt" "column:created_at" "created_at" 16 TypeKind.otherT,
       GoField.plain "UpdatedAt" "column:updated_at" "updated_at" 24 TypeKind.otherT] }

/-- Registered metadata of the auto-increment model. -/
def autoMeta : Meta := buildMetadata autoDesc

/-- A concrete `TestNode`-like entity. -/
def nodeEnt : EntityState :=
  { vals := [Value.uuid 3, Value.str "a", Value.int 1, Value.int 2] }

/-- A second concrete entity, used by batch fixtures. -/
def nodeEnt2 : EntityState :=
  { vals := [Value.uuid 4, Value.str "b", Value.int 1, Value.int 2] }

/-! ## Helper lemmas -/

theorem applyReturnedIDs_length (meta : Meta) :
    ∀ (es : List EntityState) (vs : List Value),
      (applyReturnedIDs meta es vs).length = es.length := by
  intro es vs
  induction es generalizing vs with
  | nil => cases vs <;> simp [applyReturnedIDs]
  | cons e es ih =>
    cases vs with
    | nil => simp [applyReturnedIDs]
    | cons v vs => simp [applyReturnedIDs, ih]

theorem applyReturnedIDs_getD (meta : Meta) (d : EntityState) :
    ∀ (es : List EntityState) (vs : List Value) (i : Nat),
      i < es.length → i < vs.length →
      (applyReturnedIDs meta es vs).getD i d =
        setID meta (es.getD i d) (vs.getD i Value.null) := by
  intro es
  induction es with
  | nil => intro vs i h _; simp at h
  | cons e es ih =>
    intro vs i h1 h2
    cases vs with
    | nil => simp at h2
    | cons v vs =>
      cases i with
      | zero => simp [applyReturnedIDs]
      | succ i =>
        simp only [applyReturnedIDs, List.getD_cons_succ]
        exact ih vs i (by simpa using h1) (by simpa using h2)

/-! ## Claim theorems -/

/-- C7: on a zero-row result set, the metadata scanner's multi-row entry
point and the raw scanner's slice path turn a nil destination slice into
a non-nil empty slice and return no error; `FindByQuery` and `FindAll`
(both the transaction-bound and the plain-connection versions) return a
non-nil empty slice; and the single-row raw paths (struct and map
destinations) return the distinguished no-rows error instead. -/
theorem zero_rows_behavior {α : Type} (rowScan : Row → Except ScanErr α)
    (dest : Option (List α)) (destMap : Option (List (String × Value))) :
    scannerScanRows rowScan [] dest = Except.ok (some (dest.getD [])) ∧
    scannerScanRows rowScan [] none = Except.ok (some ([] : List α)) ∧
    rawScanSlice rowScan [] dest = Except.ok (some (dest.getD [])) ∧
    rawScanSlice rowScan [] none = Except.ok (some ([] : List α)) ∧
    rawScanStruct rowScan [] = Except.error ScanErr.noRows ∧
    rawScanMap [] destMap = Except.error ScanErr.noRows ∧
    txFindByQuery true (Except.ok []) rowScan = Except.ok (some ([] : List α)) ∧
    txFindAll true (Except.ok []) rowScan = Except.ok (some ([] : List α)) ∧
    dbFindByQuery (Except.ok []) rowScan = Except.ok (some ([] : List α)) ∧
    dbFindAll (Except.ok []) rowScan = Except.ok (some ([] : List α)) := by
  refine ⟨rfl, rfl, rfl, rfl, rfl, ?_, rfl, rfl, rfl, rfl⟩
  simp [rawScanMap]

/-- C8: registering the same type twice leaves the registry in the state
a single registration produces — the stored metadata (table name, field
list, column map, primary-key fields, SQL templates, closure data) is
recomputed from scratch and overwritten with an identical value, and no
other key is disturbed. -/
theorem registerModel_idempotent (d : ModelDesc) (st : RegistryState) :
    getMetadata d.typeKey (registerModel d (registerModel d st)) =
      getMetadata d.typeKey (registerModel d st) ∧
    getMetadata d.typeKey (registerModel d st) = some (buildMetadata d) ∧
    (∀ k, k ≠ d.typeKey →
      getMetadata k (registerModel d (registerModel d st)) = getMetadata k st) := by
  refine ⟨?_, ?_, ?_⟩
  · simp [getMetadata, registerModel]
  · simp [getMetadata, registerModel]
  · intro k hk
    simp [getMetadata, registerModel, hk]

/-- C8 witness: the idempotence theorem applied to the concrete
`TestNode`-like model over the empty registry. -/
theorem registerModel_idempotent_witness :
    getMetadata "orm.TestNode" (registerModel nodeDesc (registerModel nodeDesc (fun _ => none))) =
      getMetadata "orm.TestNode" (registerModel nodeDesc (fun _ => none)) ∧
    getMetadata "other.Key" (registerModel nodeDesc (registerModel nodeDesc (fun _ => none))) =
      none :=
  ⟨(registerModel_idempotent nodeDesc (fun _ => none)).1,
   (registerModel_idempotent nodeDesc (fun _ => none)).2.2 "other.Key" (by decide)⟩

/-- C9 counterexample: the batch-insert generator at row count zero emits
a statement that ends in `VALUES ` with no placeholder group at all, and
the insert builder over an empty column list emits an empty parenthesized
column list — both syntactically invalid SQL. -/
theorem empty_join_counterexample :
    buildBatchInsertFunc "t" ["a", "b"] 0 = "INSERT INTO t (a,b) VALUES " ∧
    buildInsertSQL "t" [] [] = "INSERT INTO t () VALUES ()" := by
  constructor <;> rfl

/-- C9 amended: the SQL builders perform no empty-join guarding — zero
rows yields the batch-insert prefix followed by `VALUES ` and nothing
else, and an empty column list yields `() VALUES (..)`; validity is
instead ensured at the call sites, which return before building SQL when
the entity slice is empty. -/
theorem empty_join_shape (t : String) (cols : List String) :
    buildBatchInsertFunc t cols 0 =
      "INSERT INTO " ++ t ++ " (" ++ goJoin "," cols ++ ") VALUES " ∧
    (∀ ph, buildInsertSQL t [] ph =
      "INSERT INTO " ++ t ++ " () VALUES (" ++ goJoin "," ph ++ ")") ∧
    (∀ meta hq ids, txCreateMultiple meta hq [] ids = Except.ok ([], [])) ∧
    (∀ meta ids, dbCreateMultiple meta [] ids = Except.ok ([], [])) := by
  refine ⟨?_, ?_, ?_, ?_⟩
  · show _ ++ goJoin "," ([] : List String) = _
    rw [show goJoin "," ([] : List String) = "" from rfl, String.append_empty]
  · intro ph
    show "INSERT INTO " ++ t ++ " (" ++ goJoin "," ([] : List String) ++ ") VALUES (" ++
        goJoin "," ph ++ ")" = _
    rw [show goJoin "," ([] : List String) = "" from rfl, String.append_empty,
      String.append_assoc ("INSERT INTO " ++ t) " (" ") VALUES (",
      show (" (" ++ ") VALUES (" : String) = " () VALUES (" from rfl]
  · intro meta hq ids; simp [txCreateMultiple]
  · intro meta ids; simp [dbCreateMultiple]

/-- C10: the empty input slice makes every batch operation a successful
no-op — the ORM-level `CreateMultiple` (transaction and plain-connection
paths) returns success with no SQL statement, and the repository-level
`CreateMultiple`, `UpdateMultiple` and `DeleteMultiple` return success
with no lifecycle hook invoked and no statement executed. -/
theorem empty_batch_noop (meta : Meta) (hq : Bool) (ids : List Value)
    (hasExec : Bool) (stmts : List String) (res : Except String Unit) :
    txCreateMultiple meta hq [] ids = Except.ok ([], []) ∧
    dbCreateMultiple meta [] ids = Except.ok ([], []) ∧
    repoCreateMultiple [] hasExec stmts res = ([], Except.ok ()) ∧
    repoUpdateMultiple [] hasExec stmts res = ([], Except.ok ()) ∧
    repoDeleteMultiple [] hasExec stmts res = ([], Except.ok ()) := by
  refine ⟨?_, ?_, ?_, ?_, ?_⟩ <;>
    simp [txCreateMultiple, dbCreateMultiple, repoCreateMultiple,
      repoUpdateMultiple, repoDeleteMultiple]

/-- C3: the generic JSON handler claims non-byte slices, maps, and
non-special structs; extracting a zero-value (nil) slice yields the `[]`
document bytes and a zero-value map the empty-object bytes — never a SQL
NULL driver value (`none`) and never the `null` literal — and scanning
SQL NULL succeeds, setting a slice field to an empty non-nil slice, a
map field to an empty non-nil map, and a struct field to its zero
value. -/
theorem json_handler_zero_null_semantics (zero : List (String × Json)) :
    jsonCanHandle (GoTyShape.sliceOf false) = true ∧
    jsonCanHandle GoTyShape.mapTy = true ∧
    jsonCanHandle (GoTyShape.structTy false false) = true ∧
    jsonCanHandle (GoTyShape.sliceOf true) = false ∧
    jsonCanHandle (GoTyShape.structTy true false) = false ∧
    jsonCanHandle (GoTyShape.structTy false true) = false ∧
    jsonHandlerExtractValue (GoJsonValue.goSlice none) = some (Json.jarr []) ∧
    jsonHandlerExtractValue (GoJsonValue.goMap none) = some (Json.jobj []) ∧
    jsonHandlerExtractValue (GoJsonValue.goSlice none) ≠ none ∧
    jsonHandlerExtractValue (GoJsonValue.goMap none) ≠ none ∧
    jsonHandlerExtractValue (GoJsonValue.goSlice none) ≠ some Json.null ∧
    jsonHandlerExtractValue (GoJsonValue.goMap none) ≠ some Json.null ∧
    jsonScannerScan JsonDestKind.kslice none =
      Except.ok (GoJsonValue.goSlice (some [])) ∧
    jsonScannerScan JsonDestKind.kmap none =
      Except.ok (GoJsonValue.goMap (some [])) ∧
    jsonScannerScan (JsonDestKind.kstruct zero) none =
      Except.ok (GoJsonValue.goStruct zero) := by
  refine ⟨rfl, rfl, rfl, rfl, rfl, rfl, rfl, rfl, ?_, ?_, ?_, ?_, rfl, rfl, rfl⟩
  · exact fun h => Option.noConfusion h
  · exact fun h => Option.noConfusion h
  · exact fun h => Json.noConfusion (Option.some.inj h)
  · exact fun h => Json.noConfusion (Option.some.inj h)

/-- C4 counterexample: the raw-JSON handler's extraction of a nil
`json.RawMessage` is the byte payload `null` — a non-NULL driver value —
and scanning that payload back through the raw-JSON scan target yields
the non-nil message `null`, not nil: the write-nil/read-nil round trip
claimed fails at the handler pair itself. -/
theorem rawmessage_nil_roundtrip_counterexample :
    rawMessageExtractValue none = Value.bytes "null" ∧
    rawMessageScan (rawMessageExtractValue none) = Except.ok (some "null") ∧
    Except.ok (some "null") ≠ (Except.ok none : Except String (Option String)) := by
  refine ⟨rfl, rfl, fun h => ?_⟩
  exact Option.noConfusion (Except.ok.inj h)

/-- C4 amended: extracting a nil raw-JSON field produces the JSON `null`
literal bytes rather than a SQL NULL driver value, so the handler-level
round trip of a nil field yields the non-nil message `null`; the scan
target yields nil exactly on a SQL NULL source, which the write path of
this handler never produces (a stored SQL NULL — as written by the
repository's direct inserts — does read back as nil). -/
theorem rawmessage_null_semantics :
    rawMessageExtractValue none = Value.bytes "null" ∧
    (∀ s, rawMessageExtractValue (some s) = Value.bytes s) ∧
    rawMessageScan Value.null = Except.ok none ∧
    (∀ s, rawMessageScan (Value.bytes s) = Except.ok (some s)) ∧
    (∀ s, rawMessageScan (Value.str s) = Except.ok (some s)) ∧
    rawMessageScan (rawMessageExtractValue none) = Except.ok (some "null") ∧
    (∀ m : Option String, rawMessageExtractValue m ≠ Value.null) :=
  ⟨rfl, fun _ => rfl, rfl, fun _ => rfl, fun _ => rfl, rfl, by
    intro m h
    cases m <;> exact Value.noConfusion h⟩

/-- C1: for a non-empty entity slice of a model whose metadata carries a
non-empty primary-key column, both `CreateMultiple` paths execute the
single batch-insert statement with a ` RETURNING <id column>` suffix and
all extracted values bound in entity order, and — assuming the backend
returns one RETURNING row per entity in insertion order — entity `i`
receives returned key `i` through the metadata's `SetID` closure. -/
theorem createMultiple_batch_correlation (meta : Meta) (entities : List EntityState)
    (ids : List Value) (hne : entities ≠ []) (hid : meta.idColumn ≠ "")
    (hlen : ids.length = entities.length) :
    txCreateMultiple meta true entities ids =
      Except.ok
        ([{ sql := meta.templates.batchInsert entities.length ++ " RETURNING " ++ meta.idColumn,
            args := (entities.map (extractValues meta)).flatten }],
          applyReturnedIDs meta entities ids) ∧
    dbCreateMultiple meta entities ids =
      Except.ok
        ([{ sql := meta.templates.batchInsert entities.length ++ " RETURNING " ++ meta.idColumn,
            args := (entities.map (extractValues meta)).flatten }],
          applyReturnedIDs meta entities ids) ∧
    (applyReturnedIDs meta entities ids).length = entities.length ∧
    (∀ i, i < entities.length →
      (applyReturnedIDs meta entities ids).getD i { vals := [] } =
        setID meta (entities.getD i { vals := [] }) (ids.getD i Value.null)) := by
  have hlen0 : entities.length ≠ 0 := by
    simpa using (fun h => hne (List.length_eq_zero.mp h))
  refine ⟨?_, ?_, applyReturnedIDs_length meta entities ids, ?_⟩
  · simp [txCreateMultiple, hlen0, createMultipleCore, hid]
  · simp [dbCreateMultiple, hlen0, createMultipleCore, hid]
  · intro i hi
    exact applyReturnedIDs_getD meta { vals := [] } entities ids i hi (hlen ▸ hi)

/-- C1 witness: the correlation theorem applied to two concrete
`TestNode`-like entities and two returned UUID keys; each entity's
primary-key field ends up holding its positional returned key. -/
theorem createMultiple_batch_correlation_witness :
    txCreateMultiple nodeMeta true [nodeEnt, nodeEnt2] [Value.uuid 11, Value.uuid 22] =
      Except.ok
        ([{ sql := nodeMeta.templates.batchInsert 2 ++ " RETURNING " ++ nodeMeta.idColumn,
            args := ([nodeEnt, nodeEnt2].map (extractValues nodeMeta)).flatten }],
          applyReturnedIDs nodeMeta [nodeEnt, nodeEnt2] [Value.uuid 11, Value.uuid 22]) ∧
    (applyReturnedIDs nodeMeta [nodeEnt, nodeEnt2] [Value.uuid 11, Value.uuid 22]).getD 0
        { vals := [] } = setID nodeMeta nodeEnt (Value.uuid 11) ∧
    (applyReturnedIDs nodeMeta [nodeEnt, nodeEnt2] [Value.uuid 11, Value.uuid 22]).getD 1
        { vals := [] } = setID nodeMeta nodeEnt2 (Value.uuid 22) ∧
    setID nodeMeta nodeEnt (Value.uuid 11) =
      { vals := [Value.uuid 11, Value.str "a", Value.int 1, Value.int 2] } ∧
    setID nodeMeta nodeEnt2 (Value.uuid 22) =
      { vals := [Value.uuid 22, Value.str "b", Value.int 1, Value.int 2] } :=
  ⟨(createMultiple_batch_correlation nodeMeta [nodeEnt, nodeEnt2]
      [Value.uuid 11, Value.uuid 22] (by decide) (by decide) (by decide)).1,
   (createMultiple_batch_correlation nodeMeta [nodeEnt, nodeEnt2]
      [Value.uuid 11, Value.uuid 22] (by decide) (by decide) (by decide)).2.2.2 0 (by decide),
   (createMultiple_batch_correlation nodeMeta [nodeEnt, nodeEnt2]
      [Value.uuid 11, Value.uuid 22] (by decide) (by decide) (by decide)).2.2.2 1 (by decide),
   by decide, by decide⟩

/-- C6 counterexample: with a first field whose Go name equals the
column and a later field whose `orm` tag declares that column, the raw
scanner picks the first field by Go name — the ORM-tagged field does
not take precedence over a different field's Go name, contradicting the
claimed ORM-tag-first precedence. -/
theorem raw_scanner_precedence_counterexample :
    findFieldByName
        [{ name := "X", ormTag := "", jsonTag := "" },
         { name := "Y", ormTag := "column:x", jsonTag := "" }] "x" =
      some { name := "X", ormTag := "", jsonTag := "" } ∧
    ormTagMatches "column:x" "x" = true ∧
    ({ name := "X", ormTag := "", jsonTag := "" } : RawField) ≠
      { name := "Y", ormTag := "column:x", jsonTag := "" } := by
  refine ⟨by decide, by decide, by decide⟩

/-- C6 amended: the metadata-free raw scanner matches case-insensitively,
but its precedence is struct-declaration order, not tag kind: the first
field that matches the column by any of its Go name, its `orm` tag
column, or its `json` tag name wins, regardless of which criterion
matched. -/
theorem findFieldByName_declaration_order (fs1 fs2 : List RawField) (f : RawField)
    (name : String) (hf : fieldMatches f (goToLower name) = true)
    (hfs1 : ∀ g ∈ fs1, fieldMatches g (goToLower name) = false) :
    findFieldByName (fs1 ++ f :: fs2) name = some f := by
  induction fs1 with
  | nil =>
    simp only [List.nil_append, findFieldByName]
    exact List.find?_cons_of_pos _ hf
  | cons g gs ih =>
    simp only [List.cons_append, findFieldByName] at ih ⊢
    rw [List.find?_cons_of_neg _ (by simp [hfs1 g (by simp)])]
    exact ih (fun g' hg' => hfs1 g' (by simp [hg']))

/-- C6 witness: the declaration-order theorem applied to a concrete
field list — an uppercase column name `X` is matched (case-insensitively)
against a later field's `orm` tag once no earlier field matches. -/
theorem findFieldByName_declaration_order_witness :
    fieldMatches { name := "B", ormTag := "column:x", jsonTag := "" } (goToLower "X") = true ∧
    (∀ g ∈ [({ name := "A", ormTag := "", jsonTag := "" } : RawField)],
      fieldMatches g (goToLower "X") = false) ∧
    findFieldByName
        ([{ name := "A", ormTag := "", jsonTag := "" }] ++
          { name := "B", ormTag := "column:x", jsonTag := "" } ::
            [{ name := "C", ormTag := "", jsonTag := "" }]) "X" =
      some { name := "B", ormTag := "column:x", jsonTag := "" } :=
  ⟨by decide, by decide,
   findFieldByName_declaration_order
     [{ name := "A", ormTag := "", jsonTag := "" }]
     [{ name := "C", ormTag := "", jsonTag := "" }]
     { name := "B", ormTag := "column:x", jsonTag := "" } "X"
     (by decide) (by decide)⟩

theorem conflictValuesOf_total (meta : Meta) (values : List Value)
    (hlen : values.length = meta.fields.length) :
    ∀ cc : List String,
      conflictValuesOf meta values cc =
        some (cc.map (fun col =>
          match ((List.range meta.fields.length).zip meta.fields).find?
              (fun p => p.2.column = col) with
          | some p => values.getD p.1 Value.null
          | none => Value.null)) := by
  intro cc
  induction cc with
  | nil => rfl
  | cons col cols ih =>
    have hv : (match ((List.range meta.fields.length).zip meta.fields).find?
          (fun p => p.2.column = col) with
        | some p => values.get? p.1
        | none => some Value.null) =
        some (match ((List.range meta.fields.length).zip meta.fields).find?
            (fun p => p.2.column = col) with
          | some p => values.getD p.1 Value.null
          | none => Value.null) := by
      cases hf : ((List.range meta.fields.length).zip meta.fields).find?
          (fun p => p.2.column = col) with
      | none => rfl
      | some p =>
        have hmem := List.mem_of_find?_eq_some hf
        have hlt : p.1 < values.length := by
          rcases p with ⟨a, b⟩
          have := List.mem_range.mp (List.of_mem_zip hmem).1
          omega
        have hget : values.get? p.1 = some (values.getD p.1 Value.null) := by
          rw [List.getD_eq_getD_get?]
          cases hx : values.get? p.1 with
          | none => exact absurd (List.get?_eq_none.mp hx) (by omega)
          | some v => rfl
        exact hget
    simp only [conflictValuesOf, hv, ih, List.map_cons]

set_option maxRecDepth 100000 in
/-- C2 counterexample: for an entity type with an empty-but-non-nil
explicit update-column list, the transaction-bound `Upsert` issues
`ON CONFLICT .. DO NOTHING RETURNING ..` and falls back to a SELECT on
the no-rows signal, but the plain-connection (`DB`) `Upsert` — run on
the same model, entity and conflict columns — issues a single
`ON CONFLICT .. DO UPDATE ..` statement: the claimed behavior does not
hold on the plain-connection path. -/
theorem db_upsert_ignores_updatecols_counterexample :
    (dbUpsert nodeMeta nodeEnt ["name"] RowResp.noRows).1.map (fun s => s.sql) =
      ["INSERT INTO test_nodes (id,name,created_at,updated_at) VALUES ($1,$2,$3,$4)" ++
        " ON CONFLICT (name) DO UPDATE SET id=EXCLUDED.id,updated_at=EXCLUDED.updated_at" ++
        " RETURNING id,name,created_at,updated_at"] ∧
    (txUpsert nodeMeta true nodeEnt ["name"] (some []) RowResp.noRows RowResp.row).map
        (fun p => p.1.map (fun s => s.sql)) =
      some
        ["INSERT INTO test_nodes (id,name,created_at,updated_at) VALUES ($1,$2,$3,$4)" ++
          " ON CONFLICT (name) DO NOTHING RETURNING id,name,created_at,updated_at",
         "SELECT id,name,created_at,updated_at FROM test_nodes WHERE name = $1"] ∧
    (["INSERT INTO test_nodes (id,name,created_at,updated_at) VALUES ($1,$2,$3,$4)" ++
        " ON CONFLICT (name) DO UPDATE SET id=EXCLUDED.id,updated_at=EXCLUDED.updated_at" ++
        " RETURNING id,name,created_at,updated_at"] : List String) ≠
      ["INSERT INTO test_nodes (id,name,created_at,updated_at) VALUES ($1,$2,$3,$4)" ++
        " ON CONFLICT (name) DO NOTHING RETURNING id,name,created_at,updated_at",
       "SELECT id,name,created_at,updated_at FROM test_nodes WHERE name = $1"] := by
  refine ⟨by decide, by decide, by decide⟩

/-- C2 amended: the empty-but-non-nil update-column semantics hold on the
transaction-bound `Upsert` only, and only for models whose
`ExtractValues` output is index-aligned with the field list (no
auto-increment fields; otherwise the fallback's argument loop reads past
the extracted values and panics) — it executes the prebuilt insert with
`ON CONFLICT (conflict columns) DO NOTHING RETURNING <all columns>`, and
on the distinguished no-rows signal falls back to a plain SELECT of all
columns filtered by equality on the conflict columns, succeeding when
that row scans and propagating the no-rows signal otherwise; the
plain-connection `Upsert` never probes the update-column capability and
always issues `ON CONFLICT .. DO UPDATE` with the non-conflict,
non-`created_at` columns. -/
theorem upsert_empty_updatecols_semantics (meta : Meta) (e : EntityState)
    (cc : List String) (second : RowResp) (hcc : cc ≠ [])
    (hins : meta.insertIndices = List.range meta.fields.length) :
    txUpsert meta true e cc (some []) RowResp.row second =
      some
        ([{ sql := meta.templates.insert ++ " ON CONFLICT (" ++ goJoin "," cc ++
              ") DO NOTHING RETURNING " ++ goJoin "," (meta.fields.map (fun f => f.column)),
            args := extractValues meta e }],
          Except.ok ()) ∧
    (∀ res2 : RowResp,
      txUpsert meta true e cc (some []) RowResp.noRows res2 =
        some
          ([{ sql := meta.templates.insert ++ " ON CONFLICT (" ++ goJoin "," cc ++
                ") DO NOTHING RETURNING " ++ goJoin "," (meta.fields.map (fun f => f.column)),
              args := extractValues meta e },
            { sql := "SELECT " ++ goJoin "," (meta.fields.map (fun f => f.column)) ++
                " FROM " ++ meta.tableName ++ " WHERE " ++
                goJoin " AND " (cc.mapIdx (fun i col => col ++ " = $" ++ toString (i + 1))),
              args := cc.map (fun col =>
                match ((List.range meta.fields.length).zip meta.fields).find?
                    (fun p => p.2.column = col) with
                | some p => (extractValues meta e).getD p.1 Value.null
                | none => Value.null) }],
            match res2 with
            | RowResp.row => Except.ok ()
            | RowResp.noRows => Except.error ScanErr.noRows
            | RowResp.failure s => Except.error (ScanErr.msg s))) ∧
    (∀ resp, (dbUpsert meta e cc resp).1 =
      [{ sql := meta.templates.insert ++ " ON CONFLICT (" ++ goJoin "," cc ++
           ") DO UPDATE SET " ++
           goJoin "," (excludedUpdateCols (insertSQLColumns meta.templates.insert) cc) ++
           " RETURNING " ++ goJoin "," (meta.fields.map (fun f => f.column)),
         args := extractValues meta e }]) := by
  have hlen : cc.length ≠ 0 := by simpa using (fun h => hcc (List.length_eq_zero.mp h))
  have hlenv : (extractValues meta e).length = meta.fields.length := by
    simp [extractValues, hins]
  refine ⟨?_, ?_, ?_⟩
  · simp [txUpsert, hlen]
  · intro res2
    simp only [txUpsert,
      conflictValuesOf_total meta (extractValues meta e) hlenv cc]
    simp [hlen]
  · intro resp; simp [dbUpsert, hlen]

/-- C2 witness: the amended upsert theorem applied to the concrete
`TestNode`-like model (all fields insertable) with conflict column
`name`. -/
theorem upsert_empty_updatecols_semantics_witness :
    (["name"] : List String) ≠ [] ∧
    nodeMeta.insertIndices = List.range nodeMeta.fields.length ∧
    txUpsert nodeMeta true nodeEnt ["name"] (some []) RowResp.row RowResp.row =
      some
        ([{ sql := nodeMeta.templates.insert ++ " ON CONFLICT (" ++ goJoin "," ["name"] ++
              ") DO NOTHING RETURNING " ++
              goJoin "," (nodeMeta.fields.map (fun f => f.column)),
            args := extractValues nodeMeta nodeEnt }],
          Except.ok ()) ∧
    (∀ resp, (dbUpsert nodeMeta nodeEnt ["name"] resp).1 =
      [{ sql := nodeMeta.templates.insert ++ " ON CONFLICT (" ++ goJoin "," ["name"] ++
           ") DO UPDATE SET " ++
           goJoin "," (excludedUpdateCols (insertSQLColumns nodeMeta.templates.insert) ["name"]) ++
           " RETURNING " ++ goJoin "," (nodeMeta.fields.map (fun f => f.column)),
         args := extractValues nodeMeta nodeEnt }]) :=
  ⟨by decide, by decide,
   (upsert_empty_updatecols_semantics nodeMeta nodeEnt ["name"] RowResp.row
     (by decide) (by decide)).1,
   (upsert_empty_updatecols_semantics nodeMeta nodeEnt ["name"] RowResp.row
     (by decide) (by decide)).2.2⟩

theorem updatePairsAux_numbered (pk : String) :
    ∀ (cs : List String) (idx : Nat),
      updatePairsAux pk cs idx = numberedPairs (setColumns cs pk) idx := by
  intro cs
  induction cs with
  | nil => intro idx; rfl
  | cons c cs ih =>
    intro idx
    by_cases h : c ≠ pk ∧ c ≠ "created_at"
    · simp [updatePairsAux, setColumns, List.filter_cons, h, numberedPairs, ih]
    · simp [updatePairsAux, setColumns, List.filter_cons, h, ih]

theorem updateBindLoop_total (pk : String) (values : List Value) :
    ∀ (fields : List FieldMeta) (i : Nat), i + fields.length ≤ values.length →
      updateBindLoop pk values fields i =
        some ((((List.range' i fields.length).zip fields).filter
            (fun p => decide (p.2.column ≠ pk ∧ p.2.column ≠ "created_at"))).map
          (fun p => values.getD p.1 Value.null)) := by
  intro fields
  induction fields with
  | nil => intro i h; simp [updateBindLoop, List.range']
  | cons f fs ih =>
    intro i h
    have hi : i < values.length := by simp at h; omega
    have hget : values.get? i = some (values.getD i Value.null) := by
      rw [List.getD_eq_getD_get?]
      cases hx : values.get? i with
      | none => exact absurd (List.get?_eq_none.mp hx) (by omega)
      | some v => rfl
    have hrange : List.range' i (fs.length + 1) = i :: List.range' (i + 1) fs.length := by
      simp [List.range'_succ]
    by_cases hf : f.column ≠ pk ∧ f.column ≠ "created_at"
    · simp only [updateBindLoop, if_pos hf, hget, List.length_cons, hrange,
        List.zip_cons_cons, List.filter_cons, decide_eq_true_eq, hf, if_pos, List.map_cons]
      rw [ih (i + 1) (by simp at h ⊢; omega)]
      simp [hf]
    · simp only [updateBindLoop, if_neg hf, List.length_cons, hrange,
        List.zip_cons_cons, List.filter_cons]
      rw [ih (i + 1) (by simp at h ⊢; omega)]
      simp [hf]

/-- C5 counterexample: for a registered model with an auto-increment
primary key, `ExtractValues` covers only the three insertable columns
while the `Update` binding loop indexes it by position among all four
fields — the read for the last SET column lands past the end of the
extracted values (a runtime panic in Go, `none` here), so `Update` does
not bind the extracted values of the SET columns. -/
theorem update_binding_auto_counterexample :
    updateOp autoMeta { vals := [Value.int 5, Value.str "n", Value.int 1, Value.int 2] } =
      none ∧
    autoMeta.fields.map (fun f => f.isAutoIncrement) = [true, false, false, false] ∧
    extractValues autoMeta { vals := [Value.int 5, Value.str "n", Value.int 1, Value.int 2] } =
      [Value.str "n", Value.int 1, Value.int 2] ∧
    setColumns (autoMeta.fields.map (fun f => f.column)) autoMeta.idColumn =
      ["name", "updated_at"] := by
  refine ⟨by decide, by decide, by decide, by decide⟩

/-- C5 amended: the prebuilt UPDATE statement's SET clause contains
exactly the non-primary-key, non-`created_at` columns with placeholders
numbered `$2` upward in field order and `WHERE pk=$1`; and for models
without auto-increment fields (where the extracted-values list covers
every field, index-aligned), `Update` binds the extracted primary key
first, followed by the extracted values of exactly those SET columns in
field order. -/
theorem update_set_clause_and_binding (schema t pk : String)
    (insertCols colNames : List String) (meta : Meta) (e : EntityState)
    (hins : meta.insertIndices = List.range meta.fields.length) :
    (buildSQLTemplates schema t insertCols colNames pk).update =
      "UPDATE " ++ fullTableNameOf schema t ++ " SET " ++
        goJoin "," (numberedPairs (setColumns colNames pk) 2) ++
        " WHERE " ++ pk ++ "=$1" ∧
    updateOp meta e =
      some { sql := meta.templates.update,
             args := extractID meta e ::
               (((List.range meta.fields.length).zip meta.fields).filter
                   (fun p => decide (p.2.column ≠ meta.idColumn ∧ p.2.column ≠ "created_at"))).map
                 (fun p => e.vals.getD p.1 Value.null) } := by
  constructor
  · simp [buildSQLTemplates, buildUpdateSQL, updatePairsAux_numbered]
  · have hvals : extractValues meta e =
        (List.range meta.fields.length).map (fun i => e.vals.getD i Value.null) := by
      simp [extractValues, hins]
    have hlenv : (extractValues meta e).length = meta.fields.length := by
      simp [hvals]
    rw [updateOp, updateBindLoop_total meta.idColumn (extractValues meta e)
      meta.fields 0 (by omega)]
    simp only [Option.map_some']
    rw [← List.range_eq_range']
    have hmap :
        List.map (fun p => (extractValues meta e).getD p.1 Value.null)
          (List.filter (fun p => decide (p.2.column ≠ meta.idColumn ∧ p.2.column ≠ "created_at"))
            ((List.range meta.fields.length).zip meta.fields)) =
        List.map (fun p => e.vals.getD p.1 Value.null)
          (List.filter (fun p => decide (p.2.column ≠ meta.idColumn ∧ p.2.column ≠ "created_at"))
            ((List.range meta.fields.length).zip meta.fields)) := by
      apply List.map_congr_left
      intro p hp
      have hmem := List.mem_of_mem_filter hp
      have hlt : p.1 < meta.fields.length := by
        rcases p with ⟨a, b⟩
        exact List.mem_range.mp (List.of_mem_zip hmem).1
      have hp1 : (extractValues meta e).get? p.1 = some (e.vals.getD p.1 Value.null) := by
        rw [hvals, List.get?_eq_getElem?, List.getElem?_map, List.getElem?_range hlt]
        rfl
      rw [List.getD_eq_getD_get?, hp1]
      rfl
    rw [hmap]

/-- C5 witness: the amended theorem applied to the concrete
`TestNode`-like model, whose fields are all insertable; the binding is
the id followed by the `name` and `updated_at` values. -/
theorem update_set_clause_and_binding_witness :
    nodeMeta.insertIndices = List.range nodeMeta.fields.length ∧
    updateOp nodeMeta nodeEnt =
      some { sql := nodeMeta.templates.update,
             args := extractID nodeMeta nodeEnt ::
               (((List.range nodeMeta.fields.length).zip nodeMeta.fields).filter
                   (fun p =>
                     decide (p.2.column ≠ nodeMeta.idColumn ∧ p.2.column ≠ "created_at"))).map
                 (fun p => nodeEnt.vals.getD p.1 Value.null) } ∧
    updateOp nodeMeta nodeEnt =
      some { sql := "UPDATE test_nodes SET name=$2,updated_at=$3 WHERE id=$1",
             args := [Value.uuid 3, Value.str "a", Value.int 2] } :=
  ⟨by decide,
   (update_set_clause_and_binding "public" "test_nodes" "id" [] [] nodeMeta nodeEnt
     (by decide)).2,
   by decide⟩

end Scaffold
